import Mathlib

/-!
Verification development for the geofirestore query engine.

The TypeScript sources under `src/` are shallowly embedded here:
JavaScript numbers are modelled as rationals (`ℚ`), JavaScript strings in the
geohash range pipeline as `List Char` (a string is its character sequence),
document identifiers and payload keys as `String`, and fallible operations as
`Except GeoError`.  The helper module `utils.ts` and the joiner module
`joiner.ts` are imported by the sources but are not part of the source
snapshot; the definitions that stand in for them are modelled from the spec
and are marked as such in their doc comments.
-/

namespace GeoFirestore

/-- A latitude/longitude pair (spec section 3, GeoPoint).  Coordinates are
modelled as rationals. -/
structure GeoPoint where
  lat : ℚ
  lon : ℚ
deriving DecidableEq

/-- Modelled from the spec: `validateLocation` of the missing `utils.ts`.
A location is valid when latitude ∈ [-90, 90] and longitude ∈ [-180, 180]. -/
def validLocation (p : GeoPoint) : Bool :=
  decide ((-90 ≤ p.lat ∧ p.lat ≤ 90) ∧ (-180 ≤ p.lon ∧ p.lon ≤ 180))

/-- Error taxonomy of the library (spec section 7); only the synchronous
`InvalidArgument` class is reachable in the embedded fragment. -/
inductive GeoError where
  | invalidArgument (msg : String)
deriving DecidableEq

/-! ## Geohash codec (spec section 4.1; `utils.ts` is missing from the sources) -/

/-- The 32-symbol geohash alphabet (spec section 3). -/
def base32Chars : List Char :=
  ['0', '1', '2', '3', '4', '5', '6', '7', '8', '9',
   'b', 'c', 'd', 'e', 'f', 'g', 'h', 'j', 'k', 'm',
   'n', 'p', 'q', 'r', 's', 't', 'u', 'v', 'w', 'x', 'y', 'z']

/-- The maximum supported geohash precision (full precision at write time). -/
def GEOHASH_PRECISION : Nat := 10

/-- Modelled from the spec: the interleaved binary-search bisection of the
latitude/longitude ranges producing one bit per step, longitude first
(`encode` of the missing `utils.ts`, spec section 4.1). -/
def encodeBits : Nat → Bool → ℚ → ℚ → ℚ → ℚ → GeoPoint → List Bool
  | 0, _, _, _, _, _, _ => []
  | n + 1, isLon, latLo, latHi, lonLo, lonHi, p =>
    if isLon then
      let mid := (lonLo + lonHi) / 2
      if mid ≤ p.lon then true :: encodeBits n (!isLon) latLo latHi mid lonHi p
      else false :: encodeBits n (!isLon) latLo latHi lonLo mid p
    else
      let mid := (latLo + latHi) / 2
      if mid ≤ p.lat then true :: encodeBits n (!isLon) mid latHi lonLo lonHi p
      else false :: encodeBits n (!isLon) latLo mid lonLo lonHi p

/-- Packs a most-significant-bit-first bit list into a natural number. -/
def bitsToNat (bs : List Bool) : Nat :=
  bs.foldl (fun acc b => 2 * acc + (if b then 1 else 0)) 0

/-- Groups a bit stream into chunks of five bits (one geohash character each). -/
def chunk5 : List Bool → List (List Bool)
  | [] => []
  | b :: rest => (b :: rest.take 4) :: chunk5 (rest.drop 4)
termination_by l => l.length
decreasing_by
  simp only [List.length_cons, List.length_drop]
  omega

/-- The base-32 symbol for a 5-bit value. -/
def base32Char (n : Nat) : Char :=
  base32Chars.getD n 'z'

/-- Modelled from the spec: `encode(point, precision)` of the missing
`utils.ts` (spec section 4.1), producing the geohash as a character list. -/
def encodeGeohash (p : GeoPoint) (precision : Nat := GEOHASH_PRECISION) : List Char :=
  (chunk5 (encodeBits (5 * precision) true (-90) 90 (-180) 180 p)).map
    (fun c => base32Char (bitsToNat c))

/-! ## Region decomposer (spec section 4.2; `geohashQueries` of the missing `utils.ts`) -/

/-- Number of latitude bits contributed by a geohash of `p` characters
(5 bits per character, split longitude-first). -/
def latBitsAt (p : Nat) : Nat := 5 * p / 2

/-- Number of longitude bits contributed by a geohash of `p` characters. -/
def lonBitsAt (p : Nat) : Nat := (5 * p + 1) / 2

/-- Height of a geohash cell at precision `p`, in degrees of latitude. -/
def cellHeightDeg (p : Nat) : ℚ := 180 / 2 ^ latBitsAt p

/-- Width of a geohash cell at precision `p`, in degrees of longitude. -/
def cellWidthDeg (p : Nat) : ℚ := 360 / 2 ^ lonBitsAt p

/-- Kilometres per degree of latitude. -/
def KM_PER_DEGREE_LATITUDE : ℚ := 110574 / 1000

/-- Kilometres per degree of longitude at the equator. -/
def KM_PER_DEGREE_LONGITUDE : ℚ := 111320 / 1000

/-- Modelled from the spec: `cellSize(precision)` of the missing `utils.ts`
(spec section 4.1), the latitude extent of a cell in kilometres. -/
def cellHeightKm (p : Nat) : ℚ := KM_PER_DEGREE_LATITUDE * cellHeightDeg p

/-- Modelled from the spec: the longitude extent of a cell at the equator in
kilometres. -/
def cellWidthKm (p : Nat) : ℚ := KM_PER_DEGREE_LONGITUDE * cellWidthDeg p

/-- Whether a cell at precision `p` has both dimensions at least twice the
query radius (spec section 4.2, step 1). -/
def cellFits (p : Nat) (radiusKm : ℚ) : Bool :=
  decide (2 * radiusKm ≤ cellHeightKm p ∧ 2 * radiusKm ≤ cellWidthKm p)

/-- Modelled from the spec: choose the largest precision whose cell dimensions
are both ≥ 2 × radius, clamped to [1, GEOHASH_PRECISION]
(spec section 4.2, step 1). -/
def choosePrecision (radiusKm : ℚ) : Nat :=
  ((List.range GEOHASH_PRECISION).map (· + 1)).foldl
    (fun acc p => if cellFits p radiusKm then p else acc) 1

/-- Longitude wraparound at ±180° (spec section 4.2, step 2). -/
def wrapLon (lon : ℚ) : ℚ :=
  if lon < -180 then lon + 360 else if 180 < lon then lon - 360 else lon

/-- Modelled from the spec: the 3×3 neighborhood of offset points around the
center, one cell step in each direction; latitude neighbors beyond ±90° are
dropped, longitude wraps (spec section 4.2, step 2). -/
def neighborPoints (c : GeoPoint) (p : Nat) : List GeoPoint :=
  ([-1, 0, 1] : List ℚ).flatMap (fun di =>
    ([-1, 0, 1] : List ℚ).filterMap (fun dj =>
      let lat := c.lat + di * cellHeightDeg p
      if decide (-90 ≤ lat ∧ lat ≤ 90) then
        some ⟨lat, wrapLon (c.lon + dj * cellWidthDeg p)⟩
      else none))

/-- Modelled from the spec: expand a cell into the lexicographic range
`[cellChars + minSuffix, cellChars + maxSuffix]` spanning every geohash with
that cell as a leading block, up to full alphabet length
(spec section 4.2, step 3). -/
def cellRange (g : List Char) : List Char × List Char :=
  (g, g ++ List.replicate GEOHASH_PRECISION 'z')

/-- Keeps the first occurrence of each key `f a`, dropping later duplicates. -/
def dedupeBy {α : Type} {β : Type} [DecidableEq β] (f : α → β) : List α → List α
  | [] => []
  | a :: as => a :: dedupeBy f (as.filter (fun b => decide (f b ≠ f a)))
termination_by l => l.length
decreasing_by
  simp only [List.length_cons]
  exact Nat.lt_succ_of_le (List.length_filter_le _ _)

/-- Modelled from the spec: `geohashQueries(center, radiusMeters)` of the
missing `utils.ts` — the covering ranges of the circular region, duplicate-free
(spec section 4.2).  The radius is received in meters, as at the call site in
`query.ts`. -/
def geohashQueries (center : GeoPoint) (radiusM : ℚ) : List (List Char × List Char) :=
  let radiusKm := radiusM / 1000
  let p := choosePrecision radiusKm
  dedupeBy id ((neighborPoints center p).map (fun q => cellRange (encodeGeohash q p)))

/-! ## Document codec (spec sections 3 and 4.3; `utils.ts` is missing from the sources) -/

/-- A payload field value. -/
inductive FieldVal where
  | geo (p : GeoPoint)
  | num (q : ℚ)
  | str (s : String)
  | boolean (b : Bool)
deriving DecidableEq

/-- An opaque caller payload: a finite field map. -/
abbrev Payload := List (String × FieldVal)

/-- The stored document shape `{ g, l, d }` (spec section 3). -/
structure StoredDocument where
  g : List Char
  l : GeoPoint
  d : Payload
deriving DecidableEq

/-- Modelled from the spec: `findCoordinates(payload, customKey?)` of the
missing `utils.ts` — locate the GeoPoint inside the payload at the caller key
or the default key `coordinates`; fail with InvalidArgument if no valid point
is found there (spec section 4.3). -/
def findCoordinates (data : Payload) (customKey : Option String) : Except GeoError GeoPoint :=
  match data.lookup (customKey.getD "coordinates") with
  | some (.geo p) =>
    if validLocation p then .ok p
    else .error (.invalidArgument "invalid location")
  | _ => .error (.invalidArgument "no valid location could be found")

/-- Modelled from the spec: `encodeGeoDocument(location, geohash, document)` of
the missing `utils.ts` — the stored document `{g, l, d}` (spec section 4.3). -/
def encodeGeoDocument (location : GeoPoint) (geohash : List Char) (data : Payload) :
    StoredDocument :=
  { g := geohash, l := location, d := data }

/-- Modelled from the spec: `encodeSetDocument(data, options)` of the missing
`utils.ts` — `encodeForWrite`: find the location, encode it at full precision
and produce the stored document (spec section 4.3). -/
def encodeSetDocument (data : Payload) (customKey : Option String) :
    Except GeoError StoredDocument :=
  match findCoordinates data customKey with
  | .ok location =>
    .ok (encodeGeoDocument location (encodeGeohash location GEOHASH_PRECISION) data)
  | .error e => .error e

/-- Modelled from the spec: `encodeUpdateDocument(data, customKey)` of the
missing `utils.ts` — like the set encoder, it re-derives `g` and `l` from the
location-bearing field of the update data in the same write
(spec sections 3 and 4.3). -/
def encodeUpdateDocument (data : Payload) (customKey : Option String) :
    Except GeoError StoredDocument :=
  match findCoordinates data customKey with
  | .ok location =>
    .ok (encodeGeoDocument location (encodeGeohash location GEOHASH_PRECISION) data)
  | .error e => .error e

/-- Modelled from the spec: `decodeGeoDocumentData(stored)` of the missing
`utils.ts` — `decodeForRead`: strip the `g`/`l` bookkeeping and return the
payload with the location present at its source key (spec section 4.3). -/
def decodeGeoDocumentData (stored : StoredDocument) : Payload :=
  stored.d

/-- Embeds `GeoCollectionReference.add` (src/src/firestore.ts): find the
coordinates, compute the full-precision geohash, and write the encoded
document in a single write. -/
def geoCollectionAdd (data : Payload) (customKey : Option String) :
    Except GeoError StoredDocument :=
  match findCoordinates data customKey with
  | .ok location => .ok (encodeGeoDocument location (encodeGeohash location) data)
  | .error e => .error e

/-! ## Query criteria, validation, and the GeoQuery state (src/src/query.ts) -/

/-- The query criteria record (spec section 3, `geofirestoretypes.ts`). -/
structure QueryCriteria where
  center : Option GeoPoint := none
  radius : Option ℚ := none
  limit : Option ℚ := none
deriving DecidableEq

/-- Validation of an optional center point: fails when a present center is not
a valid location. -/
def validateCenter (c : Option GeoPoint) : Except GeoError Unit :=
  match c with
  | some p =>
    if validLocation p then .ok ()
    else .error (.invalidArgument "invalid location")
  | none => .ok ()

/-- Validation of an optional radius: fails when a present radius is ≤ 0. -/
def validateRadius (r : Option ℚ) : Except GeoError Unit :=
  match r with
  | some x =>
    if x ≤ 0 then .error (.invalidArgument "radius must be greater than 0")
    else .ok ()
  | none => .ok ()

/-- Modelled from the spec: `validateQueryCriteria` of the missing `utils.ts` —
fails with InvalidArgument when the radius is ≤ 0 or the center is invalid
(spec section 4.2). -/
def validateQueryCriteria (c : QueryCriteria) : Except GeoError Unit :=
  match validateCenter c.center with
  | .ok _ => validateRadius c.radius
  | .error e => .error e

/-- Modelled from the spec: `validateLimit` of the missing `utils.ts` — the
limit must be a positive integer (spec section 3). -/
def validateLimit (n : ℚ) : Except GeoError Unit :=
  if 0 < n ∧ n.den = 1 then .ok ()
  else .error (.invalidArgument "limit must be a positive integer")

/-- The mutable private fields `_center`, `_radius`, `_limit` of a `GeoQuery`
instance (src/src/query.ts). -/
structure GeoQueryState where
  center : Option GeoPoint := none
  radius : Option ℚ := none
  limit : Option ℚ := none
deriving DecidableEq

/-- JavaScript truthiness of an optional number: present and nonzero. -/
def truthyNum (q : Option ℚ) : Bool :=
  match q with
  | some x => decide (x ≠ 0)
  | none => false

/-- Embeds the `GeoQuery` constructor (src/src/query.ts, lines 21-41): the
limit is saved when truthy; the center and radius are validated and saved only
when both are truthy. -/
def geoQueryNew (criteria : Option QueryCriteria) : Except GeoError GeoQueryState :=
  match criteria with
  | none => .ok {}
  | some c =>
    let lim : Option ℚ := if truthyNum c.limit then c.limit else none
    if c.center.isSome && truthyNum c.radius then
      match validateQueryCriteria c with
      | .ok _ => .ok { center := c.center, radius := c.radius, limit := lim }
      | .error e => .error e
    else .ok { limit := lim }

/-- Embeds `GeoQuery.near` (src/src/query.ts, lines 121-128): validate the new
criteria, overwrite the receiver's `_center`/`_radius` (falling back to the old
values on non-truthy fields), then construct a new `GeoQuery` from the updated
criteria.  Returns (mutated receiver state, state of the returned query). -/
def geoQueryNear (st : GeoQueryState) (c : QueryCriteria) :
    Except GeoError (GeoQueryState × GeoQueryState) :=
  match validateQueryCriteria c with
  | .error e => .error e
  | .ok _ =>
    let st1 : GeoQueryState :=
      { st with
        center := match c.center with | some p => some p | none => st.center,
        radius := if truthyNum c.radius then c.radius else st.radius }
    match geoQueryNew (some { center := st1.center, radius := st1.radius, limit := st1.limit }) with
    | .ok newQ => .ok (st1, newQ)
    | .error e => .error e

/-- Embeds `GeoQuery.limit` (src/src/query.ts, lines 104-108): validate the
limit, overwrite the receiver's `_limit`, then construct a new `GeoQuery` from
the updated criteria.  Returns (mutated receiver state, returned query). -/
def geoQueryLimit (st : GeoQueryState) (n : ℚ) :
    Except GeoError (GeoQueryState × GeoQueryState) :=
  match validateLimit n with
  | .error e => .error e
  | .ok _ =>
    let st1 : GeoQueryState := { st with limit := some n }
    match geoQueryNew (some { center := st1.center, radius := st1.radius, limit := st1.limit }) with
    | .ok newQ => .ok (st1, newQ)
    | .error e => .error e

/-! ## Range-query generation (src/src/query.ts, `_generateQuery`) -/

/-- A native Firestore range query `orderBy(g).startAt(a).endAt(b)`. -/
structure RangeQuery where
  startAt : List Char
  endAt : List Char
deriving DecidableEq

/-- Embeds `_queryToString` (src/src/query.ts): join the two geohash bounds
with a colon. -/
def queryToString (q : List Char × List Char) : List Char :=
  q.1 ++ ':' :: q.2

/-- Embeds `_stringToQuery` (src/src/query.ts): split the encoded query on the
colon; the source throws unless the split has exactly two parts, modelled here
as `none`. -/
def stringToQuery (s : List Char) : Option (List Char × List Char) :=
  match s.splitOn ':' with
  | [a, b] => some (a, b)
  | _ => none

/-- Embeds the duplicate filter of `_generateQuery` (src/src/query.ts,
line 178): keep an element exactly when its first index in the list is its own
position. -/
def dedupeByFirstIndex {α : Type} [DecidableEq α] (l : List α) : List α :=
  (l.enum.filter (fun pr => decide (l.indexOf pr.2 = pr.1))).map Prod.snd

/-- Embeds `_generateQuery` (src/src/query.ts, lines 174-186): compute the
covering geohash ranges, encode them as colon-joined strings, filter out
duplicate strings, and decode each survivor into a native range query. -/
def generateQuery (center : GeoPoint) (radius : ℚ) : List RangeQuery :=
  let geohashesToQuery := (geohashQueries center (radius * 1000)).map queryToString
  let deduped := dedupeByFirstIndex geohashesToQuery
  deduped.filterMap (fun s => (stringToQuery s).map (fun q => ⟨q.1, q.2⟩))

/-! ## Documents, records, and snapshots -/

/-- A document held by the native store: an identifier plus the stored shape. -/
structure NativeDoc where
  id : String
  doc : StoredDocument
deriving DecidableEq

/-- The record shape exposed to callers (spec section 3, ResultRecord;
`QueryDocumentSnapshot` of `geofirestoretypes.ts`).  `distance` is `none` when
the snapshot was built without a query center. -/
structure ResultRecord where
  id : String
  data : Payload
  distance : Option ℚ
  docExists : Bool
deriving DecidableEq

/-- Modelled from the spec: `generateGeoQueryDocumentSnapshot` of the missing
`utils.ts`, as used by the `GeoQuerySnapshot` constructor
(src/src/querysnapshot.ts, lines 31-33): decode the payload and recompute the
distance from the query center to the stored `l` — exactly, by the distance
function `dist`, never from the geohash cell. -/
def generateGeoQueryDocumentSnapshot (dist : GeoPoint → GeoPoint → ℚ)
    (center : Option GeoPoint) (d : NativeDoc) : ResultRecord :=
  { id := d.id
    data := decodeGeoDocumentData d.doc
    distance := center.map (fun c => dist c d.doc.l)
    docExists := true }

/-- The external store interface (spec section 6): a one-shot ordered string
range read on the indexed field `g`. -/
def runRangeQuery (store : List NativeDoc) (q : RangeQuery) : List NativeDoc :=
  (store.filter (fun d => decide (q.startAt ≤ d.doc.g ∧ d.doc.g ≤ q.endAt))).mergeSort
    (fun a b => decide (a.doc.g ≤ b.doc.g))

/-! ## The one-shot joiner (spec section 4.4; `joiner.ts` is missing from the sources) -/

/-- The joiner's sort key comparison: ascending by distance, ties broken by
document identity (spec section 4.4, step 5). -/
def joinerLe (dist : GeoPoint → GeoPoint → ℚ) (c : GeoPoint) (a b : NativeDoc) : Bool :=
  decide (dist c a.doc.l < dist c b.doc.l ∨
    (dist c a.doc.l = dist c b.doc.l ∧ a.id ≤ b.id))

/-- Modelled from the spec: the merge/deduplicate/filter/sort core of
`GeoJoinerGet` of the missing `joiner.ts` (spec section 4.4, steps 3-5):
flatten the sub-range snapshots, deduplicate by document identity, discard
documents whose recomputed distance exceeds the radius, and sort ascending by
distance with ties broken by identity. -/
def geoJoinerDocs (dist : GeoPoint → GeoPoint → ℚ) (snaps : List (List NativeDoc))
    (c : GeoPoint) (r : ℚ) : List NativeDoc :=
  let flat := snaps.flatten
  let deduped := dedupeBy NativeDoc.id flat
  let filtered := deduped.filter (fun d => decide (dist c d.doc.l ≤ r))
  filtered.mergeSort (joinerLe dist c)

/-- Modelled from the spec: `GeoJoinerGet(...).getGeoQuerySnapshot()` of the
missing `joiner.ts` (spec section 4.4, step 6 plus the snapshot construction
of src/src/querysnapshot.ts): truncate the sorted result to the limit when
set, then build the query document snapshots with the query center. -/
def geoJoinerGet (dist : GeoPoint → GeoPoint → ℚ) (snaps : List (List NativeDoc))
    (c : GeoPoint) (r : ℚ) (limit : Option ℚ) : List ResultRecord :=
  let docs := geoJoinerDocs dist snaps c r
  let limited := match limit with
    | some n => docs.take n.floor.toNat
    | none => docs
  limited.map (generateGeoQueryDocumentSnapshot dist (some c))

/-! ## GeoQuery.get and GeoQuery.onSnapshot (src/src/query.ts) -/

/-- Embeds `GeoQuery.get` (src/src/query.ts, lines 61-70): when both a center
and a radius are stored, fan out the generated range queries and join the
results; otherwise run the plain native query, with the stored limit applied
to it when truthy, and wrap each document without a query center. -/
def geoQueryGet (dist : GeoPoint → GeoPoint → ℚ) (store : List NativeDoc)
    (st : GeoQueryState) : List ResultRecord :=
  match st.center, st.radius with
  | some c, some r =>
    let queries := generateQuery c r
    let snaps := queries.map (fun q => runRangeQuery store q)
    geoJoinerGet dist snaps c r st.limit
  | _, _ =>
    let docs := match st.limit with
      | some n => if n ≠ 0 then store.take n.floor.toNat else store
      | none => store
    docs.map (generateGeoQueryDocumentSnapshot dist none)

/-- Embeds `GeoQuery.onSnapshot` (src/src/query.ts, lines 140-148): the
listener is attached to the plain native query and every emitted native
snapshot is wrapped as `new GeoQuerySnapshot(snapshot)` with no query
criteria, regardless of the stored center and radius; no sub-range
subscriptions, joining, distance filtering, sorting, limiting or first-result
withholding takes place on this path. -/
def geoQueryOnSnapshotEmit (dist : GeoPoint → GeoPoint → ℚ) (_st : GeoQueryState)
    (nativeSnap : List NativeDoc) : List ResultRecord :=
  nativeSnap.map (generateGeoQueryDocumentSnapshot dist none)

end GeoFirestore

namespace GeoFirestore

/-! ## General lemmas about the deduplication helpers -/

theorem dedupeBy_sublist {α β : Type} [DecidableEq β] (f : α → β) (l : List α) :
    (dedupeBy f l).Sublist l := by
  induction l using dedupeBy.induct f with
  | case1 => simp [dedupeBy]
  | case2 a as ih =>
    rw [dedupeBy]
    exact (ih.trans (List.filter_sublist _)).cons₂ a

theorem dedupeBy_pairwise {α β : Type} [DecidableEq β] (f : α → β) (l : List α) :
    (dedupeBy f l).Pairwise (fun a b => f a ≠ f b) := by
  induction l using dedupeBy.induct f with
  | case1 => simp [dedupeBy]
  | case2 a as ih =>
    rw [dedupeBy]
    refine List.Pairwise.cons ?_ ih
    intro b hb
    have hmem := (dedupeBy_sublist f _).subset hb
    have h2 := List.of_mem_filter hmem
    have h3 := decide_eq_true_iff.mp h2
    exact fun hab => h3 hab.symm

theorem dedupeByFirstIndex_sublist {α : Type} [DecidableEq α] (l : List α) :
    (dedupeByFirstIndex l).Sublist l := by
  unfold dedupeByFirstIndex
  have h := (List.filter_sublist (l := l.enum)
    (p := fun pr => decide (l.indexOf pr.2 = pr.1))).map Prod.snd
  rwa [List.enum_map_snd] at h

theorem dedupeByFirstIndex_nodup {α : Type} [DecidableEq α] (l : List α) :
    (dedupeByFirstIndex l).Nodup := by
  unfold dedupeByFirstIndex
  have henum : l.enum.Nodup := by
    have h := List.enum_map_fst l
    have h2 : (l.enum.map Prod.fst).Nodup := by
      rw [h]
      exact List.nodup_range _
    exact h2.of_map
  refine List.Nodup.map_on ?_ (henum.filter _)
  intro x hx y hy hxy
  have hx' := List.mem_filter.mp hx
  have hy' := List.mem_filter.mp hy
  have hx2 : l.indexOf x.2 = x.1 := by simpa using hx'.2
  have hy2 : l.indexOf y.2 = y.1 := by simpa using hy'.2
  have h1 : x.1 = y.1 := by rw [← hx2, ← hy2, hxy]
  exact Prod.ext h1 hxy

/-! ## Lemmas about the colon-joined query strings -/

theorem stringToQuery_eq_some {s : List Char} {p : List Char × List Char}
    (h : stringToQuery s = some p) : s.splitOn ':' = [p.1, p.2] := by
  unfold stringToQuery at h
  rcases hsp : s.splitOn ':' with _ | ⟨a, tl⟩ <;> rw [hsp] at h
  · simp at h
  · rcases tl with _ | ⟨b, tl2⟩
    · simp at h
    · rcases tl2 with _ | ⟨c2, tl3⟩
      · simp at h
        rw [← h]
      · simp at h

theorem stringToQuery_inj {s t : List Char} {p : List Char × List Char}
    (hs : stringToQuery s = some p) (ht : stringToQuery t = some p) : s = t := by
  have h1 := stringToQuery_eq_some hs
  have h2 := stringToQuery_eq_some ht
  have e1 := List.intercalate_splitOn s ':'
  have e2 := List.intercalate_splitOn t ':'
  rw [h1] at e1
  rw [h2] at e2
  rw [← e1, ← e2]

/-! ## Lemmas about the joiner -/

theorem joinerLe_trans (dist : GeoPoint → GeoPoint → ℚ) (c : GeoPoint) :
    ∀ a b d : NativeDoc, joinerLe dist c a b = true → joinerLe dist c b d = true →
      joinerLe dist c a d = true := by
  intro a b d hab hbd
  simp only [joinerLe, decide_eq_true_iff] at hab hbd ⊢
  rcases hab with h1 | ⟨h1, h1'⟩ <;> rcases hbd with h2 | ⟨h2, h2'⟩
  · exact Or.inl (h1.trans h2)
  · exact Or.inl (h2 ▸ h1)
  · exact Or.inl (h1 ▸ h2)
  · exact Or.inr ⟨h1.trans h2, le_trans h1' h2'⟩

theorem joinerLe_total (dist : GeoPoint → GeoPoint → ℚ) (c : GeoPoint) :
    ∀ a b : NativeDoc, (joinerLe dist c a b || joinerLe dist c b a) = true := by
  intro a b
  simp only [joinerLe, Bool.or_eq_true, decide_eq_true_iff]
  rcases lt_trichotomy (dist c a.doc.l) (dist c b.doc.l) with h | h | h
  · exact Or.inl (Or.inl h)
  · rcases le_total a.id b.id with h' | h'
    · exact Or.inl (Or.inr ⟨h, h'⟩)
    · exact Or.inr (Or.inr ⟨h.symm, h'⟩)
  · exact Or.inr (Or.inl h)

theorem geoJoinerDocs_sorted (dist : GeoPoint → GeoPoint → ℚ)
    (snaps : List (List NativeDoc)) (c : GeoPoint) (r : ℚ) :
    (geoJoinerDocs dist snaps c r).Pairwise (fun a b => joinerLe dist c a b = true) :=
  List.sorted_mergeSort (joinerLe_trans dist c) (joinerLe_total dist c) _

theorem geoJoinerDocs_mem {dist : GeoPoint → GeoPoint → ℚ} {snaps : List (List NativeDoc)}
    {c : GeoPoint} {r : ℚ} {x : NativeDoc} (hx : x ∈ geoJoinerDocs dist snaps c r) :
    x ∈ snaps.flatten ∧ dist c x.doc.l ≤ r := by
  unfold geoJoinerDocs at hx
  have hx' := (List.mergeSort_perm _ _).mem_iff.mp hx
  refine ⟨(dedupeBy_sublist _ _).subset (List.mem_of_mem_filter hx'), ?_⟩
  have h := List.of_mem_filter hx'
  simpa using h

theorem geoJoinerDocs_id_nodup (dist : GeoPoint → GeoPoint → ℚ)
    (snaps : List (List NativeDoc)) (c : GeoPoint) (r : ℚ) :
    (geoJoinerDocs dist snaps c r).Pairwise (fun a b => a.id ≠ b.id) := by
  unfold geoJoinerDocs
  refine List.Pairwise.perm ?_ (List.mergeSort_perm _ _).symm ?_
  · exact List.Pairwise.sublist (List.filter_sublist _)
      (dedupeBy_pairwise NativeDoc.id snaps.flatten)
  · intro x y hxy h
    exact hxy h.symm

theorem mem_runRangeQuery {store : List NativeDoc} {q : RangeQuery} {x : NativeDoc}
    (hx : x ∈ runRangeQuery store q) : x ∈ store := by
  unfold runRangeQuery at hx
  exact List.mem_of_mem_filter ((List.mergeSort_perm _ _).mem_iff.mp hx)

theorem mem_limitTake {α : Type} {x : α} {docs : List α} {lim : Option ℚ}
    (hx : x ∈ (match lim with | some n => docs.take n.floor.toNat | none => docs)) :
    x ∈ docs := by
  cases lim
  · exact hx
  · exact List.mem_of_mem_take hx

theorem limitTake_sublist {α : Type} (docs : List α) (lim : Option ℚ) :
    (match lim with | some n => docs.take n.floor.toNat | none => docs).Sublist docs := by
  cases lim
  · exact List.Sublist.refl _
  · exact List.take_sublist _ _

theorem pairwise_take_drop {α : Type} {R : α → α → Prop} {l : List α} (h : l.Pairwise R)
    (k : Nat) : ∀ a ∈ l.take k, ∀ b ∈ l.drop k, R a b := by
  have h2 : (l.take k ++ l.drop k).Pairwise R := by
    rw [List.take_append_drop]
    exact h
  exact (List.pairwise_append.mp h2).2.2

/-! ## Concrete example inputs used by the witnesses -/

/-- A concrete, exactly-computable distance function on rational coordinates
(squared Euclidean distance), used to exercise the embedding on concrete
inputs: the library's haversine great-circle distance is transcendental and
enters the embedding as the `dist` parameter. -/
def sqDist (a b : GeoPoint) : ℚ :=
  (a.lat - b.lat) * (a.lat - b.lat) + (a.lon - b.lon) * (a.lon - b.lon)

/-- A native document stored at a given point with the default location key. -/
def exampleDoc (idStr : String) (p : GeoPoint) : NativeDoc :=
  { id := idStr, doc := { g := encodeGeohash p, l := p, d := [("coordinates", .geo p)] } }

/-- A two-document store: one document close to the origin, one far away. -/
def exampleStore : List NativeDoc :=
  [exampleDoc "near1" ⟨1 / 10, 0⟩, exampleDoc "far1" ⟨45, 45⟩]

/-- A three-document store whose first two documents lie inside the covering
ranges of a radius-1 query around the origin ("ctr" exactly at the center,
"near2" slightly north of it), while "far1" lies outside them; a geo get over
this store returns the two nearby records, so the witnesses below are
exercised on a non-empty result. -/
def exampleStoreCtr : List NativeDoc :=
  [exampleDoc "ctr" ⟨0, 0⟩, exampleDoc "near2" ⟨1 / 1000, 0⟩, exampleDoc "far1" ⟨45, 45⟩]

/-- A geo query state centered at the origin with radius 1. -/
def exampleGeoState : GeoQueryState :=
  { center := some ⟨0, 0⟩, radius := some 1, limit := none }

/-- The same geo query state with limit 1. -/
def exampleGeoStateLim : GeoQueryState :=
  { center := some ⟨0, 0⟩, radius := some 1, limit := some 1 }

end GeoFirestore

namespace GeoFirestore

/-! ## Claim C1 -/

/-- C1: for every geo query (criteria with center and radius) executed via
`GeoQuery.get`, every returned record's distance field equals the distance
recomputed by the distance function from the query center to the document's
stored location `l` (never approximated from the geohash cell), and that
distance is at most the query radius — no false positives in the final
output. -/
theorem geoQueryGet_exact_distances (dist : GeoPoint → GeoPoint → ℚ)
    (store : List NativeDoc) (st : GeoQueryState) (c : GeoPoint) (r : ℚ)
    (hc : st.center = some c) (hr : st.radius = some r) :
    ∀ rec ∈ geoQueryGet dist store st,
      ∃ d ∈ store, rec.id = d.id ∧ rec.distance = some (dist c d.doc.l) ∧
        dist c d.doc.l ≤ r := by
  intro rec hrec
  obtain ⟨sc, sr, sl⟩ := st
  cases hc
  cases hr
  simp only [geoQueryGet, geoJoinerGet] at hrec
  obtain ⟨d, hd, hgen⟩ := List.mem_map.mp hrec
  have hd' := mem_limitTake hd
  obtain ⟨hflat, hler⟩ := geoJoinerDocs_mem hd'
  obtain ⟨snap, hsnap, hdsnap⟩ := List.mem_flatten.mp hflat
  obtain ⟨q, hq, hqsnap⟩ := List.mem_map.mp hsnap
  refine ⟨d, mem_runRangeQuery (hqsnap ▸ hdsnap), ?_, ?_, hler⟩
  · rw [← hgen]
    rfl
  · rw [← hgen]
    rfl

/-- Witness for C1 at a concrete geo query over a concrete store whose geo
result is non-empty (it returns the records "ctr" and "near2"). -/
theorem geoQueryGet_exact_distances_witness :
    exampleGeoState.center = some ⟨0, 0⟩ ∧ exampleGeoState.radius = some 1 ∧
    (∀ rec ∈ geoQueryGet sqDist exampleStoreCtr exampleGeoState,
      ∃ d ∈ exampleStoreCtr, rec.id = d.id ∧ rec.distance = some (sqDist ⟨0, 0⟩ d.doc.l) ∧
        sqDist ⟨0, 0⟩ d.doc.l ≤ 1) :=
  ⟨rfl, rfl, geoQueryGet_exact_distances sqDist exampleStoreCtr exampleGeoState ⟨0, 0⟩ 1 rfl rfl⟩

/-! ## Claim C2 -/

/-- Strict before-ordering on result records: ascending distance, ties broken
by document identity. -/
def recordBefore (a b : ResultRecord) : Prop :=
  ∃ qa qb, a.distance = some qa ∧ b.distance = some qb ∧
    (qa < qb ∨ (qa = qb ∧ a.id < b.id))

/-- C2: for every geo query executed via `GeoQuery.get`, the returned records
are pairwise strictly ordered — non-decreasing by distance, with ties broken
by document identity — so the order is deterministic. -/
theorem geoQueryGet_sorted (dist : GeoPoint → GeoPoint → ℚ)
    (store : List NativeDoc) (st : GeoQueryState) (c : GeoPoint) (r : ℚ)
    (hc : st.center = some c) (hr : st.radius = some r) :
    (geoQueryGet dist store st).Pairwise recordBefore := by
  obtain ⟨sc, sr, sl⟩ := st
  cases hc
  cases hr
  simp only [geoQueryGet, geoJoinerGet]
  rw [List.pairwise_map]
  have hsorted := geoJoinerDocs_sorted dist ((generateQuery c r).map (runRangeQuery store)) c r
  have hnodup := geoJoinerDocs_id_nodup dist ((generateQuery c r).map (runRangeQuery store)) c r
  have hcomb := hsorted.and hnodup
  have hlim := hcomb.sublist (limitTake_sublist _ sl)
  refine hlim.imp ?_
  intro a b hab
  obtain ⟨hle, hne⟩ := hab
  simp only [joinerLe, decide_eq_true_iff] at hle
  refine ⟨dist c a.doc.l, dist c b.doc.l, rfl, rfl, ?_⟩
  rcases hle with h | ⟨h, h'⟩
  · exact Or.inl h
  · exact Or.inr ⟨h, lt_of_le_of_ne h' hne⟩

/-- Witness for C2 at a concrete geo query over a concrete store whose geo
result is non-empty (two records, at distances 0 and 1/1000000). -/
theorem geoQueryGet_sorted_witness :
    (geoQueryGet sqDist exampleStoreCtr exampleGeoState).Pairwise recordBefore :=
  geoQueryGet_sorted sqDist exampleStoreCtr exampleGeoState ⟨0, 0⟩ 1 rfl rfl

/-! ## Claim C3 -/

/-- C3: for every geo query executed via `GeoQuery.get` with a limit set, the
result length is at most the limit, and the limit is applied to the merged,
deduplicated, distance-filtered, sorted document set: every filtered document
left out by the truncation is at least as far from the center as every record
that was returned, so truncation happens strictly after distance filtering,
never per sub-range and never before filtering. -/
theorem geoQueryGet_limit_post_filter (dist : GeoPoint → GeoPoint → ℚ)
    (store : List NativeDoc) (st : GeoQueryState) (c : GeoPoint) (r n : ℚ)
    (hc : st.center = some c) (hr : st.radius = some r) (hl : st.limit = some n) :
    (geoQueryGet dist store st).length ≤ n.floor.toNat ∧
    (∀ rec ∈ geoQueryGet dist store st, ∀ q, rec.distance = some q →
      ∀ d ∈ geoJoinerDocs dist ((generateQuery c r).map (runRangeQuery store)) c r,
        (∀ rec2 ∈ geoQueryGet dist store st, rec2.id ≠ d.id) →
        q ≤ dist c d.doc.l) := by
  obtain ⟨sc, sr, sl⟩ := st
  cases hc
  cases hr
  cases hl
  constructor
  · simp only [geoQueryGet, geoJoinerGet, List.length_map, List.length_take]
    exact Nat.min_le_left _ _
  · intro rec hrec q hq d hd hne
    simp only [geoQueryGet, geoJoinerGet] at hrec hne
    obtain ⟨a, ha, hgen⟩ := List.mem_map.mp hrec
    have hqa : q = dist c a.doc.l := by
      rw [← hgen] at hq
      exact (Option.some.inj hq).symm
    have hdnotin : d ∉ (geoJoinerDocs dist ((generateQuery c r).map (runRangeQuery store)) c r).take
        n.floor.toNat := by
      intro hdin
      exact hne _ (List.mem_map.mpr ⟨d, hdin, rfl⟩) rfl
    have hsplit : d ∈ (geoJoinerDocs dist ((generateQuery c r).map (runRangeQuery store)) c r).take
        n.floor.toNat ++ (geoJoinerDocs dist ((generateQuery c r).map (runRangeQuery store)) c r).drop
        n.floor.toNat := by
      rw [List.take_append_drop]
      exact hd
    have hddrop : d ∈ (geoJoinerDocs dist ((generateQuery c r).map (runRangeQuery store)) c r).drop
        n.floor.toNat := by
      rcases List.mem_append.mp hsplit with h | h
      · exact absurd h hdnotin
      · exact h
    have hsorted := geoJoinerDocs_sorted dist ((generateQuery c r).map (runRangeQuery store)) c r
    have hle := pairwise_take_drop hsorted n.floor.toNat a ha d hddrop
    simp only [joinerLe, decide_eq_true_iff] at hle
    rw [hqa]
    rcases hle with h | ⟨h, _⟩
    · exact le_of_lt h
    · exact le_of_eq h

/-- Witness for C3 at a concrete geo query with limit 1 over a store whose
filtered joiner set holds two documents: the result is the single nearest
record "ctr", and "near2" is the document excluded by the truncation. -/
theorem geoQueryGet_limit_post_filter_witness :
    (geoQueryGet sqDist exampleStoreCtr exampleGeoStateLim).length ≤ (1 : ℚ).floor.toNat ∧
    (∀ rec ∈ geoQueryGet sqDist exampleStoreCtr exampleGeoStateLim, ∀ q, rec.distance = some q →
      ∀ d ∈ geoJoinerDocs sqDist ((generateQuery ⟨0, 0⟩ 1).map (runRangeQuery exampleStoreCtr))
          ⟨0, 0⟩ 1,
        (∀ rec2 ∈ geoQueryGet sqDist exampleStoreCtr exampleGeoStateLim, rec2.id ≠ d.id) →
        q ≤ sqDist ⟨0, 0⟩ d.doc.l) :=
  geoQueryGet_limit_post_filter sqDist exampleStoreCtr exampleGeoStateLim ⟨0, 0⟩ 1 1 rfl rfl rfl

end GeoFirestore

namespace GeoFirestore

/-! ## Claim C5 -/

/-- The non-geo execution as the spec words it (section 4.4, final paragraph):
execute the plain native query directly, optionally truncated by the
caller-side limit, and return its documents as records with the distance
unset.  This definition follows the spec's words, to be compared with the
embedded `geoQueryGet`. -/
def plainQueryPerSpec (store : List NativeDoc) (limit : Option ℚ) : List ResultRecord :=
  let docs : List NativeDoc :=
    match limit with
    | some n => store.take n.floor.toNat
    | none => store
  docs.map (fun d =>
    { id := d.id, data := decodeGeoDocumentData d.doc, distance := none, docExists := true })

/-- C5: for every query whose criteria lacks a center or a radius,
`GeoQuery.get` bypasses the geohash decomposition, distance filtering,
sorting and merging entirely: it runs the single plain native query with the
stored limit applied directly to it, and returns its documents unfiltered,
with the distance unset.  (A stored limit is always nonzero: the constructor
drops falsy limits and `GeoQuery.limit` rejects zero.) -/
theorem geoQueryGet_plain_bypass (dist : GeoPoint → GeoPoint → ℚ)
    (store : List NativeDoc) (st : GeoQueryState)
    (h : st.center = none ∨ st.radius = none)
    (hlim : st.limit = none ∨ ∃ n, st.limit = some n ∧ n ≠ 0) :
    geoQueryGet dist store st = plainQueryPerSpec store st.limit := by
  obtain ⟨sc, sr, sl⟩ := st
  have hbranch : (match sc, sr with
      | some c, some r => False
      | _, _ => True) := by
    rcases h with h | h <;> simp only at h <;> subst h
    · cases sr <;> trivial
    · cases sc <;> trivial
  cases sc with
  | some c =>
    cases sr with
    | some r => exact absurd hbranch (by simp)
    | none =>
      simp only [geoQueryGet, plainQueryPerSpec]
      rcases hlim with hl | ⟨n, hl, hn⟩ <;> simp only at hl <;> subst hl
      · rfl
      · simp only [if_pos hn]
        rfl
  | none =>
    simp only [geoQueryGet, plainQueryPerSpec]
    rcases hlim with hl | ⟨n, hl, hn⟩ <;> simp only at hl <;> subst hl
    · cases sr <;> rfl
    · cases sr <;> simp only [if_pos hn] <;> rfl

/-- Witness for C5: a plain query state with a stored limit of 2. -/
theorem geoQueryGet_plain_bypass_witness :
    geoQueryGet sqDist exampleStore { center := none, radius := none, limit := some 2 } =
      plainQueryPerSpec exampleStore
        ({ center := none, radius := none, limit := some 2 } : GeoQueryState).limit :=
  geoQueryGet_plain_bypass sqDist exampleStore
    { center := none, radius := none, limit := some 2 }
    (Or.inl rfl) (Or.inr ⟨2, rfl, by norm_num⟩)

end GeoFirestore

namespace GeoFirestore

/-! ## Claim C6 -/

/-- C6: for every center and radius, the list of geohash range queries
generated by `GeoQuery._generateQuery` is duplicate-free — no two generated
queries cover the same `[start, end]` geohash range. -/
theorem generateQuery_nodup (c : GeoPoint) (r : ℚ) : (generateQuery c r).Nodup := by
  unfold generateQuery
  refine List.Nodup.filterMap ?_ (dedupeByFirstIndex_nodup _)
  intro s t q hqs hqt
  simp only [Option.mem_def, Option.map_eq_some'] at hqs hqt
  obtain ⟨ps, hps, hmk⟩ := hqs
  obtain ⟨pt, hpt, hmk2⟩ := hqt
  have hpq : ps = pt := by
    have h1 : ps.1 = q.startAt ∧ ps.2 = q.endAt := by
      cases hmk
      exact ⟨rfl, rfl⟩
    have h2 : pt.1 = q.startAt ∧ pt.2 = q.endAt := by
      cases hmk2
      exact ⟨rfl, rfl⟩
    exact Prod.ext (h1.1.trans h2.1.symm) (h1.2.trans h2.2.symm)
  exact stringToQuery_inj hps (hpq ▸ hpt)

end GeoFirestore

namespace GeoFirestore

theorem validateQueryCriteria_error_of_bad {c : QueryCriteria} {p : GeoPoint} {r : ℚ}
    (hc : c.center = some p) (hr : c.radius = some r)
    (h : r ≤ 0 ∨ validLocation p = false) :
    ∃ e, validateQueryCriteria c = .error e := by
  unfold validateQueryCriteria validateCenter validateRadius
  rw [hc, hr]
  rcases h with h | h
  · cases hv : validLocation p
    · simp [hv]
    · simp [hv, h]
  · simp [h]

theorem validateQueryCriteria_ok_of_valid {c : QueryCriteria}
    (hc : ∀ p, c.center = some p → validLocation p = true)
    (hr : ∀ r, c.radius = some r → 0 < r) :
    validateQueryCriteria c = .ok () := by
  unfold validateQueryCriteria validateCenter validateRadius
  cases hcen : c.center with
  | none =>
    cases hrad : c.radius with
    | none => rfl
    | some r =>
      have hpos := hr r hrad
      simp [not_le.mpr hpos]
  | some p =>
    have hv := hc p hcen
    cases hrad : c.radius with
    | none => simp [hv]
    | some r =>
      have hpos := hr r hrad
      simp [hv, not_le.mpr hpos]

/-- C7 counterexample: constructing a GeoQuery with a valid center and a
radius of 0 — invalid criteria per the claim, since radius ≤ 0 — does not
fail: JavaScript truthiness makes the constructor skip validation entirely and
silently treat the criteria as a plain non-geo query. -/
theorem geoQueryNew_radius_zero_accepted :
    geoQueryNew (some { center := some ⟨0, 0⟩, radius := some 0, limit := none }) =
      .ok { center := none, radius := none, limit := none } := rfl

/-- C7 (amended): the constructor validates criteria only when a center and a
nonzero radius are both present — a negative radius or an invalid center is
then rejected synchronously, but a radius of 0 with a center is silently
treated as a plain non-geo query; `GeoQuery.near` validates its criteria
unconditionally, rejecting radius ≤ 0 and invalid centers; `GeoQuery.limit`
rejects a limit that is not a positive integer; valid criteria never raise. -/
theorem validation_contract :
    (∀ (p : GeoPoint) (r : ℚ) (lim : Option ℚ), r ≠ 0 →
      (r < 0 ∨ validLocation p = false) →
      ∃ e, geoQueryNew (some { center := some p, radius := some r, limit := lim }) =
        .error e) ∧
    (∀ (p : GeoPoint) (lim : Option ℚ),
      geoQueryNew (some { center := some p, radius := some 0, limit := lim }) =
        .ok { center := none, radius := none, limit := if truthyNum lim then lim else none }) ∧
    (∀ (st : GeoQueryState) (c : QueryCriteria) (p : GeoPoint) (r : ℚ),
      c.center = some p → c.radius = some r → (r ≤ 0 ∨ validLocation p = false) →
      ∃ e, geoQueryNear st c = .error e) ∧
    (∀ (st : GeoQueryState) (n : ℚ), ¬ (0 < n ∧ n.den = 1) →
      ∃ e, geoQueryLimit st n = .error e) ∧
    (∀ c : QueryCriteria,
      (∀ p, c.center = some p → validLocation p = true) →
      (∀ r, c.radius = some r → 0 < r) →
      ∃ st, geoQueryNew (some c) = .ok st) := by
  refine ⟨?_, ?_, ?_, ?_, ?_⟩
  · intro p r lim hne h
    obtain ⟨e, he⟩ := validateQueryCriteria_error_of_bad
      (c := { center := some p, radius := some r, limit := lim }) rfl rfl
      (h.imp_left le_of_lt)
    refine ⟨e, ?_⟩
    have htr : truthyNum (some r) = true := by simp [truthyNum, hne]
    simp only [geoQueryNew, Option.isSome_some, htr, Bool.and_self, if_true, he]
  · intro p lim
    rfl
  · intro st c p r hc hr h
    obtain ⟨e, he⟩ := validateQueryCriteria_error_of_bad hc hr h
    exact ⟨e, by simp only [geoQueryNear, he]⟩
  · intro st n h
    refine ⟨.invalidArgument "limit must be a positive integer", ?_⟩
    simp only [geoQueryLimit, validateLimit, if_neg h]
  · intro c hc hr
    have hok := validateQueryCriteria_ok_of_valid hc hr
    by_cases hcond : (c.center.isSome && truthyNum c.radius) = true
    · refine ⟨⟨c.center, c.radius, if truthyNum c.limit then c.limit else none⟩, ?_⟩
      simp only [geoQueryNew, hcond, if_true, hok]
    · refine ⟨⟨none, none, if truthyNum c.limit then c.limit else none⟩, ?_⟩
      simp only [geoQueryNew, if_neg hcond]

/-- Witness for C7 (amended): a negative radius with a valid center is
rejected by the constructor. -/
theorem validation_contract_witness :
    ∃ e, geoQueryNew (some { center := some ⟨0, 0⟩, radius := some (-1), limit := none }) =
      .error e :=
  validation_contract.1 ⟨0, 0⟩ (-1) none (by norm_num) (Or.inl (by norm_num))

end GeoFirestore

namespace GeoFirestore

/-! ## Claim C8 -/

/-- C8: every embedded write operation that stores a document — collection
`add`, the set encoder shared by document/batch/transaction `set`, and the
update encoder shared by document/batch/transaction `update` — writes the
stored document with `g` equal to the full-precision geohash encoding of `l`
in the same single write, so after any successful write the invariant
`g = encode(l, GEOHASH_PRECISION)` holds. -/
theorem write_invariant_g_encodes_l :
    ∀ (data : Payload) (customKey : Option String) (sd : StoredDocument),
      (geoCollectionAdd data customKey = .ok sd ∨
        encodeSetDocument data customKey = .ok sd ∨
        encodeUpdateDocument data customKey = .ok sd) →
      sd.g = encodeGeohash sd.l GEOHASH_PRECISION := by
  intro data ck sd h
  rcases h with h | h | h <;>
    [unfold geoCollectionAdd at h; unfold encodeSetDocument at h; unfold encodeUpdateDocument at h] <;>
    (cases hf : findCoordinates data ck <;> rw [hf] at h) <;>
    cases h <;> rfl

/-- A concrete payload with a valid location at the default key. -/
def examplePayload : Payload :=
  [("coordinates", .geo ⟨1, 2⟩), ("count", .num 3)]

/-- The stored document produced for the concrete payload. -/
def exampleStored : StoredDocument :=
  encodeGeoDocument ⟨1, 2⟩ (encodeGeohash ⟨1, 2⟩ GEOHASH_PRECISION) examplePayload

/-- Witness for C8: the concrete add writes `g = encode(l)`. -/
theorem write_invariant_g_encodes_l_witness :
    exampleStored.g = encodeGeohash exampleStored.l GEOHASH_PRECISION :=
  write_invariant_g_encodes_l examplePayload none exampleStored (Or.inl rfl)

/-! ## Claim C9 -/

/-- C9: for every payload with a valid location at its source key, encoding it
for write and then decoding the stored document for read is lossless — the
decoded payload equals the original payload, with the `g`/`l` bookkeeping
stripped and the location present at its original key. -/
theorem encode_decode_lossless :
    ∀ (data : Payload) (ck : Option String) (loc : GeoPoint) (sd : StoredDocument),
      findCoordinates data ck = .ok loc →
      encodeSetDocument data ck = .ok sd →
      decodeGeoDocumentData sd = data ∧
        data.lookup (ck.getD "coordinates") = some (.geo loc) := by
  intro data ck loc sd hf he
  unfold encodeSetDocument at he
  rw [hf] at he
  cases he
  refine ⟨rfl, ?_⟩
  unfold findCoordinates at hf
  cases hl : data.lookup (ck.getD "coordinates") <;> rw [hl] at hf
  · cases hf
  · rename_i v
    cases v with
    | geo p =>
      have hf2 : (if validLocation p = true then Except.ok p
          else Except.error (GeoError.invalidArgument "invalid location")) =
          (Except.ok loc : Except GeoError GeoPoint) := hf
      by_cases hv : validLocation p = true
      · rw [if_pos hv] at hf2
        cases hf2
        rfl
      · rw [if_neg hv] at hf2
        cases hf2
    | num q => cases hf
    | str s => cases hf
    | boolean b => cases hf

/-- Witness for C9 at the concrete payload. -/
theorem encode_decode_lossless_witness :
    decodeGeoDocumentData exampleStored = examplePayload ∧
      examplePayload.lookup ((none : Option String).getD "coordinates") =
        some (.geo ⟨1, 2⟩) :=
  encode_decode_lossless examplePayload none ⟨1, 2⟩ exampleStored rfl rfl

end GeoFirestore

namespace GeoFirestore

theorem validateQueryCriteria_radius_pos {c : QueryCriteria} {r : ℚ}
    (h : validateQueryCriteria c = .ok ()) (hr : c.radius = some r) : 0 < r := by
  unfold validateQueryCriteria at h
  cases hv : validateCenter c.center with
  | error e =>
    simp only [hv] at h
    cases h
  | ok u =>
    simp only [hv] at h
    by_contra hgt
    have hle : r ≤ 0 := le_of_not_lt hgt
    simp only [validateRadius, hr, if_pos hle] at h
    cases h

/-! ## Claim C10 -/

/-- C10: `GeoQuery.near` and `GeoQuery.limit` mutate the receiver before
returning a new GeoQuery: after a successful `near` with criteria carrying a
center and radius, the original instance's own center and radius equal the new
values (the limit untouched); after a successful `limit(n)`, the original
instance's own limit equals `n` (center and radius untouched) — so a
subsequent `get` on the original instance uses the refined criteria; the
original instance is not left unchanged. -/
theorem near_limit_mutate_receiver :
    (∀ (st : GeoQueryState) (c : QueryCriteria) (p : GeoPoint) (r : ℚ)
        (st1 newQ : GeoQueryState),
      c.center = some p → c.radius = some r →
      geoQueryNear st c = .ok (st1, newQ) →
      st1.center = some p ∧ st1.radius = some r ∧ st1.limit = st.limit ∧
        ∀ (dist : GeoPoint → GeoPoint → ℚ) (store : List NativeDoc),
          geoQueryGet dist store st1 =
            geoQueryGet dist store { center := some p, radius := some r, limit := st.limit }) ∧
    (∀ (st : GeoQueryState) (n : ℚ) (st1 newQ : GeoQueryState),
      geoQueryLimit st n = .ok (st1, newQ) →
      st1.limit = some n ∧ st1.center = st.center ∧ st1.radius = st.radius ∧
        ∀ (dist : GeoPoint → GeoPoint → ℚ) (store : List NativeDoc),
          geoQueryGet dist store st1 =
            geoQueryGet dist store { center := st.center, radius := st.radius, limit := some n }) := by
  constructor
  · intro st c p r st1 newQ hc hr h
    obtain ⟨a, b, l⟩ := st
    unfold geoQueryNear at h
    cases hv : validateQueryCriteria c with
    | error e =>
      simp only [hv] at h
      cases h
    | ok u =>
      have hpos := validateQueryCriteria_radius_pos hv hr
      have htr : truthyNum (some r) = true := by
        simp [truthyNum, ne_of_gt hpos]
      simp only [hv, hc, hr, htr, if_true] at h
      cases hgn : geoQueryNew (some { center := some p, radius := some r, limit := l }) with
      | error e =>
        simp only [hgn] at h
        cases h
      | ok st2 =>
        simp only [hgn] at h
        cases h
        exact ⟨rfl, rfl, rfl, fun dist store => rfl⟩
  · intro st n st1 newQ h
    obtain ⟨a, b, l⟩ := st
    unfold geoQueryLimit at h
    cases hv : validateLimit n with
    | error e =>
      simp only [hv] at h
      cases h
    | ok u =>
      simp only [hv] at h
      cases hgn : geoQueryNew (some { center := a, radius := b, limit := some n }) with
      | error e =>
        simp only [hgn] at h
        cases h
      | ok st2 =>
        simp only [hgn] at h
        cases h
        exact ⟨rfl, rfl, rfl, fun dist store => rfl⟩

end GeoFirestore

namespace GeoFirestore

/-- Witness for C10: refining a fresh query with center (1, 1) and radius 2
mutates the receiver's own criteria. -/
theorem near_limit_mutate_receiver_witness :
    ({ center := some ⟨1, 1⟩, radius := some 2, limit := none } : GeoQueryState).center =
        some ⟨1, 1⟩ ∧
      ({ center := some ⟨1, 1⟩, radius := some 2, limit := none } : GeoQueryState).radius =
        some 2 ∧
      ({ center := some ⟨1, 1⟩, radius := some 2, limit := none } : GeoQueryState).limit =
        ({} : GeoQueryState).limit ∧
      ∀ (dist : GeoPoint → GeoPoint → ℚ) (store : List NativeDoc),
        geoQueryGet dist store { center := some ⟨1, 1⟩, radius := some 2, limit := none } =
          geoQueryGet dist store
            { center := some ⟨1, 1⟩, radius := some 2, limit := ({} : GeoQueryState).limit } :=
  near_limit_mutate_receiver.1 {} { center := some ⟨1, 1⟩, radius := some 2, limit := none }
    ⟨1, 1⟩ 2 { center := some ⟨1, 1⟩, radius := some 2, limit := none }
    { center := some ⟨1, 1⟩, radius := some 2, limit := none } rfl rfl rfl

end GeoFirestore

namespace GeoFirestore

/-! ## Claim C4 -/

/-- C4: demonstration that `GeoQuery.onSnapshot` does not implement the
live-join contract.  With a stored center (0, 0) and radius 1, the embedded
listener (src/src/query.ts, lines 140-148) wraps the raw native snapshot with
no query criteria: a document 45° away — whose recomputed distance far exceeds
the radius, and which the one-shot joiner contract would discard, as the
second conjunct shows — is emitted to the caller unfiltered, with no distance
at all.  No sub-range fan-out, merging, sorting, limiting or first-snapshot
withholding occurs on this code path. -/
theorem onSnapshot_ignores_geo_criteria :
    geoQueryOnSnapshotEmit sqDist { center := some ⟨0, 0⟩, radius := some 1, limit := none }
        [exampleDoc "far1" ⟨45, 45⟩] =
      [{ id := "far1", data := [("coordinates", .geo ⟨45, 45⟩)], distance := none,
         docExists := true }] ∧
    geoJoinerGet sqDist [[exampleDoc "far1" ⟨45, 45⟩]] ⟨0, 0⟩ 1 none = [] := by
  constructor
  · rfl
  · have hfar : ¬ sqDist ⟨0, 0⟩ (exampleDoc "far1" ⟨45, 45⟩).doc.l ≤ 1 := by
      show ¬ sqDist ⟨0, 0⟩ ⟨45, 45⟩ ≤ 1
      unfold sqDist
      norm_num
    unfold geoJoinerGet geoJoinerDocs
    simp [dedupeBy, hfar, List.mergeSort_nil]

end GeoFirestore
